import Mathlib

/-!
Verification of the brat per-project configuration module
(`server/src/projectconfig.py`).

Strings are modelled as `List Char` (the unicode-codepoint view of a
Python string).  Python dicts are modelled as insertion-ordered
association lists; Python exceptions as `Except String`.  Each
definition below is a shallow embedding of the correspondingly named
Python function or method; line numbers in comments refer to
`projectconfig.py`.
-/

set_option maxRecDepth 4000

deriving instance DecidableEq for Except

/-- Abbreviation: the character list of a string literal. -/
def chars (s : String) : List Char := s.toList

/-- Python `str.strip()` whitespace set (ASCII): space, tab, newline,
carriage return, vertical tab, form feed. -/
def isSpaceChar (c : Char) : Bool :=
  c = ' ' ∨ c = '\t' ∨ c = '\n' ∨ c = '\r' ∨ c = Char.ofNat 11 ∨ c = Char.ofNat 12

/-- Python `str.lstrip()`. -/
def lstripChars (l : List Char) : List Char := l.dropWhile isSpaceChar

/-- Python `str.rstrip()`. -/
def rstripChars (l : List Char) : List Char := (l.reverse.dropWhile isSpaceChar).reverse

/-- Python `str.strip()`. -/
def stripChars (l : List Char) : List Char := rstripChars (lstripChars l)

/-- Python `str.split(sep)` for a single-character separator:
`"".split(sep) == [""]`, empty pieces are kept. -/
def splitOnChar (sep : Char) : List Char → List (List Char)
  | [] => [[]]
  | c :: rest =>
    if c = sep then [] :: splitOnChar sep rest
    else
      match splitOnChar sep rest with
      | r :: rs => (c :: r) :: rs
      | [] => [[c]]

/-- First-match lookup in an association list (Python `d[k]` / `d.get(k)`). -/
def lookupAssoc {K V : Type} [DecidableEq K] : List (K × V) → K → Option V
  | [], _ => none
  | (k', v) :: rest, k => if k' = k then some v else lookupAssoc rest k

/-- Python `d[k] = v`: overwrite the binding in place if the key is
present, otherwise append it (dicts modelled insertion-ordered). -/
def setAssoc {K V : Type} [DecidableEq K] : List (K × V) → K → V → List (K × V)
  | [], k, v => [(k, v)]
  | (k', v') :: rest, k, v =>
    if k' = k then (k', v) :: rest else (k', v') :: setAssoc rest k v

/-- Python `d.setdefault(k, []).append(v)` pattern
(`if k not in d: d[k] = []` then `d[k].append(v)`). -/
def appendAssoc {K V : Type} [DecidableEq K] : List (K × List V) → K → V → List (K × List V)
  | [], k, v => [(k, [v])]
  | (k', vs) :: rest, k, v =>
    if k' = k then (k', vs ++ [v]) :: rest else (k', vs) :: appendAssoc rest k v

/-- Python `str.replace(pat, rep)`: leftmost non-overlapping
replacement, scanning continues after the inserted replacement. -/
def replaceAll (pat rep : List Char) : List Char → List Char
  | [] => []
  | c :: rest =>
    if h : pat ≠ [] ∧ pat.isPrefixOf (c :: rest) then
      rep ++ replaceAll pat rep ((c :: rest).drop pat.length)
    else
      c :: replaceAll pat rep rest
  termination_by l => l.length
  decreasing_by
    · simp only [List.length_drop, List.length_cons]
      have hp : 1 ≤ pat.length := by
        cases hpat : pat with
        | nil => exact absurd hpat h.1
        | cons a as => simp
      omega
    · simp

/-- lines 612-619: `unique_preserve_order`. -/
def unique_preserve_order {α : Type} [DecidableEq α] (l : List α) : List α :=
  (l.foldl (fun (acc : List α × List α) i =>
    if i ∈ acc.1 then acc else (acc.1 ++ [i], acc.2 ++ [i])) ([], [])).2

/-- Characters accepted by lines 83's character class `[a-zA-Z0-9_-]`. -/
def storage_form_char (c : Char) : Bool :=
  ('a' ≤ c ∧ c ≤ 'z') ∨ ('A' ≤ c ∧ c ≤ 'Z') ∨ ('0' ≤ c ∧ c ≤ '9') ∨ c = '_' ∨ c = '-'

/-- lines 65-88: `normalize_to_storage_form`.  The source replaces
spaces with underscores (line 80), then replaces every character
outside `[a-zA-Z0-9_-]` with an underscore (line 83).  The
`unicodedata.normalize` transliteration on line 82 is assigned to the
local variable `ascii`, which is never used afterwards, so it has no
effect on the result; the per-call memoization cache is semantically
transparent (the function is pure). -/
def normalize_to_storage_form (t : List Char) : List Char :=
  (t.map (fun c => if c = ' ' then '_' else c)).map
    (fun c => if storage_form_char c then c else '_')

/-- The data carried by one `TypeHierarchyNode` (lines 90-192), minus
the `children` list, which in the source is a mutable list of object
references and is modelled separately as a heap (`Hierarchy`). -/
structure NodeData where
  /-- `self.terms` after the `!`-stripping loop of lines 115-118. -/
  terms : List (List Char)
  /-- `self.args`: the raw argument-spec strings. -/
  args : List (List Char)
  /-- `self.unused`. -/
  unused : Bool
  /-- `self.__primary_term`, returned by `storage_form()` (line 188). -/
  storage_form : List Char
  /-- `self.arguments`: role name to list of allowed type strings. -/
  arguments : List (List Char × List (List Char))
  /-- `self.arg_list`: role names in declaration order. -/
  arg_list : List (List Char)
  /-- `self.mandatory_arguments`. -/
  mandatory_arguments : List (List Char)
  /-- `self.multiple_allowed_arguments`. -/
  multiple_allowed_arguments : List (List Char)
  /-- `self.keys_by_type`: allowed type string to role names. -/
  keys_by_type : List (List Char × List (List Char))
  deriving DecidableEq, Repr, Inhabited

/-- line 144: `key[-1:] not in ("?", "*")`. -/
def arg_key_mandatory (key : List Char) : Bool :=
  ¬ (key.getLast? = some '?' ∨ key.getLast? = some '*')

/-- line 149: `key[-1:] in ("*", "+")`. -/
def arg_key_multiple (key : List Char) : Bool :=
  key.getLast? = some '*' ∨ key.getLast? = some '+'

/-- lines 154-155: strip a trailing `?`/`*`/`+` from the role name. -/
def arg_key_strip (key : List Char) : List Char :=
  if key.getLast? = some '?' ∨ key.getLast? = some '*' ∨ key.getLast? = some '+' then
    key.dropLast
  else key

/-- Accumulator for the argument-parsing loop of lines 136-186. -/
structure ArgAcc where
  arguments : List (List Char × List (List Char))
  arg_list : List (List Char)
  mandatory_arguments : List (List Char)
  multiple_allowed_arguments : List (List Char)
  keys_by_type : List (List Char × List (List Char))
  deriving DecidableEq, Repr

/-- One iteration of the loop `for a in self.args` (lines 136-186).
The regex `^(.*?):(.*)$` splits at the first `:` (non-greedy), failing
when no `:` is present.  A duplicate role name raises (in the source
the message formatting itself raises `TypeError`, but either way node
construction aborts with an exception).  An empty type in the
`|`-separated group raises `InvalidProjectConfigException`; the source
raises at the first empty entry mid-loop, which aborts the whole node
construction, so checking all entries up front is observationally
equal at node granularity. -/
def processArg (acc : ArgAcc) (a0 : List Char) : Except String ArgAcc :=
  let a := stripChars a0
  let key0 := a.takeWhile (fun c => c ≠ ':')
  match a.dropWhile (fun c => c ≠ ':') with
  | [] => .error "failed to parse argument"
  | _ :: atypes =>
    let mand := arg_key_mandatory key0
    let mult := arg_key_multiple key0
    let key := arg_key_strip key0
    if (lookupAssoc acc.arguments key).isSome then
      .error "argument appears multiple times"
    else
      let tys := splitOnChar '|' atypes
      if tys.any (fun ty => stripChars ty = []) then
        .error "empty type for argument"
      else
        .ok { arguments := tys.foldl (fun d ty => appendAssoc d key ty) acc.arguments
              arg_list := acc.arg_list ++ [key]
              mandatory_arguments :=
                acc.mandatory_arguments ++ (if mand then [key] else [])
              multiple_allowed_arguments :=
                acc.multiple_allowed_arguments ++ (if mult then [key] else [])
              keys_by_type := tys.foldl (fun d ty => appendAssoc d ty key) acc.keys_by_type }

/-- `TypeHierarchyNode.__init__` (lines 106-186).  Empty term lists or
empty terms raise (line 109-111; the broken `Messager.debug` call
raises `NameError` first, but construction aborts either way).  A term
whose first character is `!` is stripped and marks the node unused
(lines 115-118).  The storage form is the normalization of the first
(stripped) term (line 124). -/
def mkNode (terms args : List (List Char)) : Except String NodeData :=
  if terms.length = 0 ∨ (terms.filter (fun t => t = ([] : List Char))).length ≠ 0 then
    .error "empty term in type configuration"
  else
    let stripped := terms.map (fun t => match t with | '!' :: rest => rest | _ => t)
    let unusedB := terms.any (fun t => match t with | '!' :: _ => true | _ => false)
    let primary := normalize_to_storage_form (stripped.headD [])
    do
      let acc ← args.foldlM processArg ⟨[], [], [], [], []⟩
      .ok { terms := stripped
            args := args
            unused := unusedB
            storage_form := primary
            arguments := acc.arguments
            arg_list := acc.arg_list
            mandatory_arguments := acc.mandatory_arguments
            multiple_allowed_arguments := acc.multiple_allowed_arguments
            keys_by_type := acc.keys_by_type }

/-- Convenience: the node produced by a `TypeHierarchyNode(...)` call
that is known to succeed (used only to name concrete nodes). -/
def nodeOfOk (terms args : List (List Char)) : NodeData :=
  (mkNode terms args).toOption.getD default

/-! ## Query layer (lines 472-790)

All query functions in the source traverse flattened type lists
obtained from `get_*_type_list` (depth-first flattening of the parsed
hierarchies).  The queries below therefore take those flattened
`List NodeData` values explicitly, which also quantifies over every
resolved configuration. -/

/-- lines 586-608: `very_likely_physical_entity_types` (the two
commented-out entries are excluded). -/
def very_likely_physical_entity_types : List (List Char) :=
  [chars "Protein", chars "Entity", chars "Organism", chars "Chemical",
   chars "Two-component-system", chars "Regulon-operon",
   chars "Protein_family_or_group", chars "DNA_domain_or_region",
   chars "Protein_domain_or_region", chars "Amino_acid_monomer",
   chars "Carbohydrate", chars "Cell_type", chars "Drug_or_compound",
   chars "Gene_or_gene_product", chars "Pathway", chars "Tissue",
   chars "Other_pharmaceutical_agent"]

/-- line 739: `get_entity_types`. -/
def get_entity_types (entities : List NodeData) : List (List Char) :=
  entities.map NodeData.storage_form

/-- line 727: `get_event_types`. -/
def get_event_types (events : List NodeData) : List (List Char) :=
  events.map NodeData.storage_form

/-- line 730: `get_relation_types`. -/
def get_relation_types (relations : List NodeData) : List (List Char) :=
  relations.map NodeData.storage_form

/-- lines 764-768: `is_physical_entity_type`. -/
def is_physical_entity_type (entities : List NodeData) (t : List Char) : Bool :=
  very_likely_physical_entity_types.contains t ∨ (get_entity_types entities).contains t

/-- lines 770-771: `is_event_type`. -/
def is_event_type (events : List NodeData) (t : List Char) : Bool :=
  (get_event_types events).contains t

/-- lines 773-774: `is_relation_type`.  The source reads
`return t is self.get_relation_types()`: the Python `is` operator
compares object identity, and a string is never the same object as
the freshly constructed list returned by `get_relation_types`, so the
result is `False` for every input. -/
def is_relation_type (relations : List NodeData) (t : List Char) : Bool :=
  false

/-- lines 776-790: `type_category`. -/
def type_category (entities events relations : List NodeData) (t : List Char) : List Char :=
  if is_physical_entity_type entities t then chars "PHYSICAL"
  else if is_event_type events t then chars "EVENT"
  else if is_relation_type relations t then chars "RELATION"
  else chars "OTHER"

/-- lines 522-534: the dict built by `get_node_by_storage_form`,
`d[t] = e` over the concatenated entity and event type lists
(a duplicate storage form overwrites, after a non-fatal warning). -/
def build_sf_index (nodes : List NodeData) : List (List Char × NodeData) :=
  nodes.foldl (fun d e => setAssoc d e.storage_form e) []

/-- lines 522-534: `get_node_by_storage_form` (its per-directory
cache is semantically transparent). -/
def get_node_by_storage_form (entities events : List NodeData) (term : List Char) :
    Option NodeData :=
  lookupAssoc (build_sf_index (entities ++ events)) term

/-- lines 628-637: `ProjectConfiguration.mandatory_arguments`; an
unknown type yields `[]` after a non-fatal warning. -/
def mandatory_arguments (entities events : List NodeData) (ty : List Char) :
    List (List Char) :=
  match get_node_by_storage_form entities events ty with
  | none => []
  | some node => node.mandatory_arguments

/-- lines 639-648: `ProjectConfiguration.multiple_allowed_arguments`. -/
def multiple_allowed_arguments (entities events : List NodeData) (ty : List Char) :
    List (List Char) :=
  match get_node_by_storage_form entities events ty with
  | none => []
  | some node => node.multiple_allowed_arguments

/-- line 544's magic storage form. -/
def entity_nesting_sf : List Char := chars "ENTITY-NESTING"

/-- The `<ANY>` wildcard literal. -/
def any_wildcard : List Char := chars "<ANY>"

/-- The loop of lines 541-554.  A relation whose storage form is
`ENTITY-NESTING` is skipped.  A relation with `len(arg_list) != 2`
reaches the `Messager.warning` call on line 548, which evaluates the
undefined name `args` and therefore raises `NameError`, aborting the
whole query.  Otherwise each type declared for the selected argument
slot that matches (`type == "<ANY>" or atype == "<ANY>" or type ==
atype`) appends the relation once. -/
def relsByArgGo (num : Nat) (atype : List Char) : List NodeData → Except String (List NodeData)
  | [] => .ok []
  | r :: rest =>
    if r.storage_form = entity_nesting_sf then relsByArgGo num atype rest
    else if r.arg_list.length ≠ 2 then
      .error "NameError: name args is not defined"
    else
      match lookupAssoc r.arguments (r.arg_list.getD num []) with
      | none => .error "KeyError"
      | some types =>
        match relsByArgGo num atype rest with
        | .error e => .error e
        | .ok tail =>
          .ok ((types.filter
                 (fun ty => ty = any_wildcard ∨ atype = any_wildcard ∨ ty = atype)).map
                 (fun _ => r) ++ tail)

/-- lines 536-556: `__directory_relations_by_arg_num` (line 537's
assertion rejects `num ∉ {0, 1}`). -/
def directory_relations_by_arg_num (rels : List NodeData) (num : Nat) (atype : List Char) :
    Except String (List NodeData) :=
  if num < 2 then relsByArgGo num atype rels else .error "INTERNAL ERROR"

/-- lines 653-658: `relation_types_from` (the per-directory caches of
`get_relations_by_arg1` are semantically transparent). -/
def relation_types_from (rels : List NodeData) (fromAnn : List Char) :
    Except String (List (List Char)) :=
  (directory_relations_by_arg_num rels 0 fromAnn).map (List.map NodeData.storage_form)

/-- lines 660-665: `relation_types_to`. -/
def relation_types_to (rels : List NodeData) (toAnn : List Char) :
    Except String (List (List Char)) :=
  (directory_relations_by_arg_num rels 1 toAnn).map (List.map NodeData.storage_form)

/-- The loop of lines 677-679: `for r in t1r: if r in t2r:
types.append(r.storage_form())`.  Python's `in` compares the node
objects by identity (`TypeHierarchyNode` defines no `__eq__`);
membership here is structural, which coincides as long as no two
distinct relation nodes of the configuration carry identical field
values (each parsed node is a distinct object, and `t1r`/`t2r` draw
from the same relation list). -/
def fromToLoop : List NodeData → List NodeData → List (List Char)
  | [], _ => []
  | r :: rest, t2r =>
    if r ∈ t2r then r.storage_form :: fromToLoop rest t2r else fromToLoop rest t2r

/-- lines 667-681: `relation_types_from_to` (an exception from either
relation query propagates, as in the source). -/
def relation_types_from_to (rels : List NodeData) (fromAnn toAnn : List Char) :
    Except String (List (List Char)) :=
  match directory_relations_by_arg_num rels 0 fromAnn with
  | .error e => .error e
  | .ok t1r =>
    match directory_relations_by_arg_num rels 1 toAnn with
    | .error e => .error e
    | .ok t2r => .ok (fromToLoop t1r t2r)

/-! ## Hierarchy parser (lines 194-252) -/

/-- line 62: `reserved_macro_name`. -/
def reservedNames : List (List Char) :=
  [chars "ANY", chars "ENTITY", chars "RELATION", chars "EVENT", chars "NONE"]

/-- Characters admitted by line 214's name class `[a-zA-Z_-]`. -/
def nameChar (c : Char) : Bool :=
  ('a' ≤ c ∧ c ≤ 'z') ∨ ('A' ≤ c ∧ c ≤ 'Z') ∨ c = '_' ∨ c = '-'

/-- line 214: the regex `^<([a-zA-Z_-]+)>=\s*(.*?)\s*$`.  Returns the
placeholder name and the stripped replacement value when the line is a
definition line; the line must start with `<` (no leading whitespace is
admitted by the anchored pattern), the name must be a nonempty run of
`[a-zA-Z_-]`, immediately followed by `>=`; the value is the rest of
the line with surrounding whitespace stripped. -/
def parseDefLine (l : List Char) : Option (List Char × List Char) :=
  match l with
  | '<' :: rest =>
    let name := rest.takeWhile nameChar
    match rest.dropWhile nameChar with
    | '>' :: '=' :: value => if name = [] then none else some (name, stripChars value)
    | _ => none
  | _ => none

/-- Parser state for `__read_term_hierarchy` (lines 194-198).  Python
node objects live on the heap and are mutated through the
`last_node_at_depth` references; the heap is modelled explicitly:
node ids are indices into `pool`, `childrenIds` is the parallel list
of their `children` lists (as ids), `roots` collects root-level
entries (`none` being the `"SEPARATOR"` placeholder of line 208). -/
structure ParseState where
  pool : List NodeData
  childrenIds : List (List Nat)
  roots : List (Option Nat)
  lastAtDepth : List (Nat × Nat)
  defs : List (List Char × List Char)
  deriving DecidableEq, Repr

def initParseState : ParseState := ⟨[], [], [], [], []⟩

/-- One iteration of the loop `for l in input` (lines 199-250):
skip blanks and `#`-comments; a line of hyphens appends a separator;
a `<NAME>=VALUE` line defines a placeholder unless the name is
reserved (lines 214-223; redefinition of a reserved name hits
`assert False`); every other line has all current placeholder
substitutions applied (lines 226-227; the source iterates an
unordered dict — substitution order is observable only when one
replacement value contains another placeholder's name), and is then
parsed by the regex `^(\s*)([^\t]+)(?:\t(.*))?$`: the depth is the
length of the maximal leading whitespace run, the terms are the
`|`-separated pieces before the first tab, the argument specs the
comma-separated pieces after it.  A node at depth `d > 0` becomes a
child of the most recent node at depth `d - 1` (fatal when none
exists, line 248); the node becomes the most recent node at its
depth. -/
def processLine (st : ParseState) (l : List Char) : Except String ParseState :=
  if stripChars l = [] ∨ (lstripChars l).head? = some '#' then .ok st
  else if (stripChars l).all (fun c => c = '-') then
    .ok { st with roots := st.roots ++ [none] }
  else
    match parseDefLine l with
    | some (name, value) =>
      if name ∈ reservedNames then
        .error "cannot redefine reserved name"
      else
        .ok { st with defs := setAssoc st.defs ('<' :: name ++ ['>']) value }
    | none =>
      let l' := st.defs.foldl (fun cur p => replaceAll p.1 p.2 cur) l
      let indent := l'.takeWhile isSpaceChar
      let restL := l'.dropWhile isSpaceChar
      let termsStr := restL.takeWhile (fun c => c ≠ '\t')
      let afterTab := restL.dropWhile (fun c => c ≠ '\t')
      let terms := ((splitOnChar '|' termsStr).map stripChars).filter (fun t => t ≠ [])
      let argsL :=
        match afterTab with
        | [] => []
        | _ :: a =>
          if stripChars a = [] then []
          else ((splitOnChar ',' a).map stripChars).filter (fun t => t ≠ [])
      let depth := indent.length
      match mkNode terms argsL with
      | .error e => .error e
      | .ok n =>
        let id := st.pool.length
        let st' := { st with pool := st.pool ++ [n], childrenIds := st.childrenIds ++ [[]] }
        if depth = 0 then
          .ok { st' with roots := st'.roots ++ [some id]
                         lastAtDepth := setAssoc st'.lastAtDepth 0 id }
        else
          match lookupAssoc st'.lastAtDepth (depth - 1) with
          | none => .error "no parent"
          | some pid =>
            .ok { st' with
                  childrenIds := st'.childrenIds.set pid (st'.childrenIds.getD pid [] ++ [id])
                  lastAtDepth := setAssoc st'.lastAtDepth depth id }

/-- The parsed form of one section: the node heap together with the
root-level entries (`none` = separator). -/
structure Hierarchy where
  pool : List NodeData
  childrenIds : List (List Nat)
  roots : List (Option Nat)
  deriving DecidableEq, Repr

/-- lines 194-252: `__read_term_hierarchy`. -/
def read_term_hierarchy (input : List (List Char)) : Except String Hierarchy := do
  let st ← input.foldlM processLine initParseState
  .ok ⟨st.pool, st.childrenIds, st.roots⟩

/-! ## Section splitter and config resolution (lines 336-404) -/

/-- Section name constants (lines 22-27). -/
def entitySection : List Char := chars "entities"
def relationSection : List Char := chars "relations"
def eventSection : List Char := chars "events"
def attributeSection : List Char := chars "attributes"

def expectedConfigurationSections : List (List Char) :=
  [entitySection, relationSection, eventSection, attributeSection]

/-- line 346: the regex `^\s*\[(.*)\]\s*$` — after stripping
surrounding whitespace the line must start with `[` and end with `]`;
the section name is everything in between, taken verbatim. -/
def sectionHeader (l : List Char) : Option (List Char) :=
  match stripChars l with
  | '[' :: rest =>
    if rest.getLast? = some ']' then some rest.dropLast else none
  | _ => none

/-- The loop of lines 343-354: split the document's lines into
per-section line lists, an implicit `"general"` section collecting
lines before any header (insertion-ordered dict of lists). -/
def splitSections (lines : List (List Char)) : List (List Char × List (List Char)) :=
  (lines.foldl
    (fun (acc : List (List Char × List (List Char)) × List Char) l =>
      match sectionHeader l with
      | some name =>
        (if (lookupAssoc acc.1 name).isSome then acc.1 else acc.1 ++ [(name, [])], name)
      | none => (appendAssoc acc.1 acc.2 l, acc.2))
    ([(chars "general", [])], chars "general")).1

/-- lines 336-371: `__parse_configs`.  Every collected section
(including `general` and unknown ones) is run through the hierarchy
parser; any failure propagates (line 363 re-raises).  Missing expected
sections are replaced by empty hierarchies (lines 366-369).  The
source iterates an unordered Python 2 dict; insertion order is used
here — which section's error surfaces is unspecified in the source,
but success and the resulting mapping agree. -/
def parse_configs (configstr : List Char) :
    Except String (List (List Char × Hierarchy)) := do
  let sections := splitSections (splitOnChar '\n' configstr)
  let parsed ← sections.foldlM
    (fun (acc : List (List Char × Hierarchy)) p => do
      let h ← read_term_hierarchy p.2
      .ok (acc ++ [(p.1, h)]))
    []
  .ok (expectedConfigurationSections.foldl
    (fun cfgs s =>
      if (lookupAssoc cfgs s).isSome then cfgs else cfgs ++ [(s, ⟨[], [], []⟩)])
    parsed)

/-- A one-node hierarchy, as built by a direct `TypeHierarchyNode`
call in `__minimal_configuration`. -/
def singleNodeHierarchy (terms args : List (List Char)) : Hierarchy :=
  ⟨[nodeOfOk terms args], [[]], [some 0]⟩

/-- lines 374-379: `__minimal_configuration` — the hard-coded minimal
known-good configuration: one generic node per section. -/
def minimal_configuration : List (List Char × Hierarchy) :=
  [(entitySection, singleNodeHierarchy [chars "Protein"] []),
   (relationSection,
     singleNodeHierarchy [chars "Equiv"] [chars "Arg1:Protein", chars "Arg2:Protein"]),
   (eventSection, singleNodeHierarchy [chars "Event"] [chars "Theme:Protein"]),
   (attributeSection, singleNodeHierarchy [chars "Negation"] [chars "Arg:<EVENT>"])]

/-- lines 394-399 of `get_configs`: parse the located document,
falling back to the minimal configuration on any parse error (the
`try/except` swallows every exception after a diagnostic warning).
The file-location part (lines 382-392) supplies `configstr` and is
modelled by the explicit parameter; the cache is semantically
transparent. -/
def get_configs_from (configstr : List Char) : List (List Char × Hierarchy) :=
  match parse_configs configstr with
  | .ok configs => configs
  | .error _ => minimal_configuration

/-! ## Directory-tree walk (lines 313-334) -/

/-- The head component of Python `os.path.split` (posixpath): with
`i = p.rfind('/') + 1`, the head is `p[:i]`; when the head is nonempty
and not entirely slashes, its trailing slashes are stripped.
`p[:i]` is `p` with its maximal trailing run of non-slash characters
removed. -/
def splitHeadDir (p : List Char) : List Char :=
  let head := (p.reverse.dropWhile (fun c => c ≠ '/')).reverse
  if head ≠ [] ∧ ¬ head.all (fun c => c = '/') then
    (head.reverse.dropWhile (fun c => c = '/')).reverse
  else head

/-- Python substring containment `pat in s`: `pat` occurs contiguously
in `s` (an empty `pat` is contained in everything). -/
def substringIn (pat : List Char) : List Char → Bool
  | [] => pat.isPrefixOf []
  | c :: rest => if pat.isPrefixOf (c :: rest) then true else substringIn pat rest

/-- Outcome of the walk of `__read_first_in_directory_tree`. -/
inductive WalkResult where
  | found (content : List Char)
  | notFound
  deriving DecidableEq, Repr

/-- The `while BASE_DIR in directory` loop of lines 327-332, with
explicit fuel: `none` means the loop has not finished within `fuel`
iterations.  `probe dir` models `__read_or_default(join(dir,
filename), None)` — the file-existence/read collaborator; `basedir`
models `BASE_DIR` (which defaults to `"/"` when the `config` import
fails, line 319); `BASE_DIR in directory` is Python substring
containment. -/
def walkFuel (probe : List Char → Option (List Char)) (basedir : List Char) :
    Nat → List Char → Option WalkResult
  | 0, _ => none
  | fuel + 1, dir =>
    if substringIn basedir dir then
      match probe dir with
      | some content => some (.found content)
      | none => walkFuel probe basedir fuel (splitHeadDir dir)
    else
      some .notFound

/-- The walk terminates when some finite fuel suffices. -/
def walkTerminates (probe : List Char → Option (List Char)) (basedir dir : List Char) :
    Prop :=
  ∃ fuel, (walkFuel probe basedir fuel dir).isSome

/-! ## Helper lemmas -/

theorem lookupAssoc_setAssoc {K V : Type} [DecidableEq K]
    (d : List (K × V)) (k k' : K) (v : V) :
    lookupAssoc (setAssoc d k v) k' = if k = k' then some v else lookupAssoc d k' := by
  induction d with
  | nil =>
    by_cases h : k = k' <;> simp [setAssoc, lookupAssoc, h]
  | cons p rest ih =>
    obtain ⟨k0, v0⟩ := p
    simp only [setAssoc]
    by_cases h0 : k0 = k
    · rw [if_pos h0]
      subst h0
      by_cases h1 : k0 = k' <;> simp [lookupAssoc, h1]
    · rw [if_neg h0]
      by_cases h1 : k0 = k'
      · have hkk : ¬ k = k' := fun he => h0 (he ▸ h1)
        simp [lookupAssoc, h1, hkk]
      · simp [lookupAssoc, h1, ih]

theorem find?_append_eq {α : Type} (p : α → Bool) (l₁ l₂ : List α) :
    (l₁ ++ l₂).find? p =
      match l₁.find? p with
      | some x => some x
      | none => l₂.find? p := by
  induction l₁ with
  | nil => simp
  | cons a l ih =>
    cases h : p a <;> simp [List.find?_cons, h, ih]

theorem lookup_foldl_setAssoc (d : List (List Char × NodeData)) (ns : List NodeData)
    (t : List Char) :
    lookupAssoc (ns.foldl (fun d e => setAssoc d e.storage_form e) d) t =
      match ns.reverse.find? (fun n => n.storage_form = t) with
      | some n => some n
      | none => lookupAssoc d t := by
  induction ns generalizing d with
  | nil => simp
  | cons n ns ih =>
    simp only [List.foldl_cons, List.reverse_cons, ih, find?_append_eq]
    cases hf : ns.reverse.find? (fun n => n.storage_form = t) with
    | some m => simp
    | none =>
      simp only [List.find?_cons, List.find?_nil]
      rw [lookupAssoc_setAssoc]
      cases hd : (decide (n.storage_form = t)) with
      | true =>
        have : n.storage_form = t := of_decide_eq_true hd
        simp [this]
      | false =>
        have : ¬ n.storage_form = t := of_decide_eq_false hd
        simp [this]

theorem fromToLoop_eq_filter (t1r t2r : List NodeData) :
    fromToLoop t1r t2r = (t1r.filter (fun r => r ∈ t2r)).map NodeData.storage_form := by
  induction t1r with
  | nil => rfl
  | cons r rest ih =>
    by_cases h : r ∈ t2r <;> simp [fromToLoop, List.filter_cons, h, ih]

theorem storage_form_char_of_mem_normalize (s : List Char) :
    ∀ c ∈ normalize_to_storage_form s, storage_form_char c = true := by
  intro c hc
  unfold normalize_to_storage_form at hc
  rw [List.map_map, List.mem_map] at hc
  obtain ⟨a, _, rfl⟩ := hc
  simp only [Function.comp]
  by_cases h : storage_form_char (if a = ' ' then '_' else a)
  · simp [h]
  · simp only [if_neg h]
    decide

theorem normalize_fixed_of_storage_chars (s : List Char)
    (h : ∀ c ∈ s, storage_form_char c = true) :
    normalize_to_storage_form s = s := by
  unfold normalize_to_storage_form
  rw [List.map_map]
  have he : ∀ c ∈ s,
      ((fun c => if storage_form_char c then c else '_') ∘
       (fun c => if c = ' ' then '_' else c)) c = id c := by
    intro c hc
    have h1 := h c hc
    have hne : c ≠ ' ' := by
      intro e
      subst e
      exact absurd h1 (by decide)
    simp [Function.comp, hne, h1]
  rw [List.map_congr_left he, List.map_id]

/-! ## Claims -/

/-- C10: when several nodes in the combined entity-plus-event list
share a storage form, `get_node_by_storage_form` resolves to the node
occurring last in the entity-then-event traversal (the dict write
`d[t] = e` overwrites), and `mandatory_arguments` and
`multiple_allowed_arguments` therefore report that last node's data
(with `[]` for unknown storage forms); earlier nodes are unreachable
through these queries, and index construction never fails. -/
theorem C10_storage_form_lookup_last_wins
    (entities events : List NodeData) (term : List Char) :
    get_node_by_storage_form entities events term
      = ((entities ++ events).reverse.find? (fun n => n.storage_form = term))
    ∧ mandatory_arguments entities events term
      = ((entities ++ events).reverse.find? (fun n => n.storage_form = term)).elim []
          NodeData.mandatory_arguments
    ∧ multiple_allowed_arguments entities events term
      = ((entities ++ events).reverse.find? (fun n => n.storage_form = term)).elim []
          NodeData.multiple_allowed_arguments := by
  have hmain : get_node_by_storage_form entities events term
      = ((entities ++ events).reverse.find? (fun n => n.storage_form = term)) := by
    unfold get_node_by_storage_form build_sf_index
    rw [lookup_foldl_setAssoc]
    cases hf : (entities ++ events).reverse.find? (fun n => n.storage_form = term) with
    | some m => simp
    | none => simp [lookupAssoc]
  refine ⟨hmain, ?_, ?_⟩
  · unfold mandatory_arguments
    rw [hmain]
    cases hf : (entities ++ events).reverse.find? (fun n => n.storage_form = term) <;> simp
  · unfold multiple_allowed_arguments
    rw [hmain]
    cases hf : (entities ++ events).reverse.find? (fun n => n.storage_form = term) <;> simp

/-- C8: `normalize_to_storage_form` is idempotent (every output
character is already in the storage class `[a-zA-Z0-9_-]`, on which
both passes are the identity), and `"Two Component"` normalizes to
`"Two_Component"`. -/
theorem C8_normalize_idempotent :
    (∀ s : List Char,
       normalize_to_storage_form (normalize_to_storage_form s) = normalize_to_storage_form s)
    ∧ normalize_to_storage_form (chars "Two Component") = chars "Two_Component" :=
  ⟨fun s => normalize_fixed_of_storage_chars _ (storage_form_char_of_mem_normalize s),
   by decide⟩

/-- C4: the transliteration step of `normalize_to_storage_form` is
dead code (its result is bound to the unused local `ascii`), so the
accented letter `é` is replaced by an underscore rather than mapped to
its ASCII equivalent `e`; space replacement and the residual
underscore replacement do behave as described. -/
theorem C4_normalize_drops_accents :
    normalize_to_storage_form (chars "é") = chars "_"
    ∧ normalize_to_storage_form (chars "é") ≠ chars "e"
    ∧ normalize_to_storage_form (chars "a b.c") = chars "a_b_c" := by
  refine ⟨by decide, by decide, by decide⟩

/-- C2: `is_relation_type` compares the string `t` with the freshly
built list `self.get_relation_types()` using Python `is` (object
identity), which is always false; hence `type_category` can never
return the relation category, and in particular the relation storage
form `"Equiv"` of the minimal configuration is categorized as
`"OTHER"`. -/
theorem C2_relation_category_unreachable :
    (∀ (entities events relations : List NodeData) (t : List Char),
       type_category entities events relations t ≠ chars "RELATION")
    ∧ type_category [nodeOfOk [chars "Protein"] []]
        [nodeOfOk [chars "Event"] [chars "Theme:Protein"]]
        [nodeOfOk [chars "Equiv"] [chars "Arg1:Protein", chars "Arg2:Protein"]]
        (chars "Equiv") = chars "OTHER"
    ∧ chars "Equiv" ∈ get_relation_types
        [nodeOfOk [chars "Equiv"] [chars "Arg1:Protein", chars "Arg2:Protein"]] := by
  refine ⟨?_, by decide, by decide⟩
  intro entities events relations t
  unfold type_category
  split_ifs with h1 h2 h3
  · decide
  · decide
  · exact absurd h3 (by simp [is_relation_type])
  · decide

/-- C5: the claim describes the intended behavior; in the source, a
relation node whose declared role count is not 2 reaches the
`Messager.warning` call of line 548, whose argument expression
evaluates the undefined name `args`, raising `NameError` and aborting
the whole query — matches from other relation nodes are lost instead
of being returned. -/
theorem C5_bad_arity_relation_raises :
    relation_types_from
      [nodeOfOk [chars "Equiv"] [chars "Arg1:Protein", chars "Arg2:Protein"],
       nodeOfOk [chars "Bad"] [chars "Arg1:Protein"]]
      (chars "Protein")
      = .error "NameError: name args is not defined" := by decide

/-- C1 counterexample: a relation declaring `Arg1:Protein|Protein`
matches `from_type = "Protein"` through both declared arg1 types, so
`relation_types_from_to` reports its storage form twice — the claim's
"duplicates removed / never contains the same storage form twice" part
fails. -/
theorem C1_counterexample :
    relation_types_from_to
      [nodeOfOk [chars "Equiv"] [chars "Arg1:Protein|Protein", chars "Arg2:Protein"]]
      (chars "Protein") (chars "Protein")
      = .ok [chars "Equiv", chars "Equiv"]
    ∧ ¬ List.Nodup [chars "Equiv", chars "Equiv"]
    ∧ [chars "Equiv", chars "Equiv"]
        ≠ unique_preserve_order [chars "Equiv", chars "Equiv"] := by
  refine ⟨by decide, by decide, by decide⟩

/-- C1 (amended): whenever both underlying relation queries succeed,
`relation_types_from_to` returns the storage forms of exactly those
entries of the arg1-matching list that also occur in the arg2-matching
list, in arg1-list order — one output entry per arg1-list entry, with
no deduplication (the arg1 list itself lists a relation once per
declared arg1 type matching `from_type`). -/
theorem C1_from_to_is_undeduped_intersection
    (rels : List NodeData) (fromAnn toAnn : List Char) (t1r t2r : List NodeData)
    (h1 : directory_relations_by_arg_num rels 0 fromAnn = .ok t1r)
    (h2 : directory_relations_by_arg_num rels 1 toAnn = .ok t2r) :
    relation_types_from_to rels fromAnn toAnn
      = .ok ((t1r.filter (fun r => r ∈ t2r)).map NodeData.storage_form) := by
  unfold relation_types_from_to
  rw [h1, h2]
  exact congrArg Except.ok (fromToLoop_eq_filter t1r t2r)

/-- Witness for C1: a concrete configuration on which both relation
queries succeed and the characterization applies. -/
theorem C1_witness :
    relation_types_from_to
      [nodeOfOk [chars "Equiv"] [chars "Arg1:Protein", chars "Arg2:Protein"]]
      (chars "Protein") (chars "Protein")
      = .ok (([nodeOfOk [chars "Equiv"] [chars "Arg1:Protein", chars "Arg2:Protein"]].filter
               (fun r =>
                 r ∈ [nodeOfOk [chars "Equiv"] [chars "Arg1:Protein", chars "Arg2:Protein"]])).map
             NodeData.storage_form) :=
  C1_from_to_is_undeduped_intersection
    [nodeOfOk [chars "Equiv"] [chars "Arg1:Protein", chars "Arg2:Protein"]]
    (chars "Protein") (chars "Protein")
    [nodeOfOk [chars "Equiv"] [chars "Arg1:Protein", chars "Arg2:Protein"]]
    [nodeOfOk [chars "Equiv"] [chars "Arg1:Protein", chars "Arg2:Protein"]]
    (by decide) (by decide)

/-- C9: argument-suffix parsing follows the suffix table:
`"Theme+:Protein"` puts the role `Theme` in both `mandatory_arguments`
and `multiple_allowed_arguments`; `"Arg?:Protein"` puts `Arg` in
neither; a role name without a `?`/`*`/`+` suffix is mandatory and not
multiple; a role name suffixed `*` is multiple and not mandatory. -/
theorem C9_suffix_table :
    ((mkNode [chars "X"] [chars "Theme+:Protein"]).toOption.map
        (fun n => (n.mandatory_arguments, n.multiple_allowed_arguments)))
      = some ([chars "Theme"], [chars "Theme"])
    ∧ ((mkNode [chars "X"] [chars "Arg?:Protein"]).toOption.map
        (fun n => (n.mandatory_arguments, n.multiple_allowed_arguments)))
      = some ([], [])
    ∧ (∀ key : List Char,
        key.getLast? ≠ some '?' → key.getLast? ≠ some '*' → key.getLast? ≠ some '+' →
        arg_key_mandatory key = true ∧ arg_key_multiple key = false)
    ∧ (∀ key : List Char,
        arg_key_mandatory (key ++ ['*']) = false ∧ arg_key_multiple (key ++ ['*']) = true) := by
  refine ⟨by decide, by decide, ?_, ?_⟩
  · intro key h1 h2 h3
    unfold arg_key_mandatory arg_key_multiple
    constructor
    · simp [h1, h2]
    · simp [h2, h3]
  · intro key
    unfold arg_key_mandatory arg_key_multiple
    rw [List.getLast?_concat]
    constructor
    · simp
    · simp

/-- Witness for C9: the general suffix rules applied to the concrete
role names `Theme` (unsuffixed) and `Arg*`. -/
theorem C9_witness :
    (arg_key_mandatory (chars "Theme") = true ∧ arg_key_multiple (chars "Theme") = false)
    ∧ (arg_key_mandatory (chars "Arg" ++ ['*']) = false
       ∧ arg_key_multiple (chars "Arg" ++ ['*']) = true) :=
  ⟨C9_suffix_table.2.2.1 (chars "Theme") (by decide) (by decide) (by decide),
   C9_suffix_table.2.2.2 (chars "Arg")⟩

/-- C3: whenever `__parse_configs` raises (the located document fails
to parse), `get_configs` swallows the exception and returns the
hard-coded minimal built-in configuration, whose four sections each
consist of a single root node: a generic entity (`Protein`), relation
(`Equiv`), event (`Event`), and attribute (`Negation`). -/
theorem C3_parse_failure_falls_back_to_minimal (configstr : List Char) (e : String)
    (h : parse_configs configstr = .error e) :
    get_configs_from configstr = minimal_configuration
    ∧ minimal_configuration.map
        (fun p => (p.1, p.2.pool.map NodeData.storage_form, p.2.roots))
      = [(entitySection, [chars "Protein"], [some 0]),
         (relationSection, [chars "Equiv"], [some 0]),
         (eventSection, [chars "Event"], [some 0]),
         (attributeSection, [chars "Negation"], [some 0])] := by
  refine ⟨?_, by decide⟩
  unfold get_configs_from
  rw [h]

/-- Witness for C3: a syntactically invalid document (its single
argument spec lacks the mandatory `:`), on which the resolver returns
the minimal configuration. -/
theorem C3_witness :
    get_configs_from (chars "[entities]\nFoo\tbad") = minimal_configuration
    ∧ minimal_configuration.map
        (fun p => (p.1, p.2.pool.map NodeData.storage_form, p.2.roots))
      = [(entitySection, [chars "Protein"], [some 0]),
         (relationSection, [chars "Equiv"], [some 0]),
         (eventSection, [chars "Event"], [some 0]),
         (attributeSection, [chars "Negation"], [some 0])] :=
  C3_parse_failure_falls_back_to_minimal (chars "[entities]\nFoo\tbad")
    "failed to parse argument" (by decide)

theorem dropWhile_append_singleton (p : Char → Bool) (xs : List Char) (c : Char)
    (h : p c = false) :
    (xs ++ [c]).dropWhile p = xs.dropWhile p ++ [c] := by
  induction xs with
  | nil => simp [List.dropWhile_cons, h]
  | cons x xs ih => by_cases hx : p x <;> simp [List.dropWhile_cons, hx, ih]

theorem rstripChars_cons_of_not_space (c : Char) (l : List Char)
    (h : isSpaceChar c = false) :
    rstripChars (c :: l) = c :: rstripChars l := by
  unfold rstripChars
  rw [List.reverse_cons, dropWhile_append_singleton _ _ _ h, List.reverse_append]
  simp

theorem stripChars_cons_of_not_space (c : Char) (l : List Char)
    (h : isSpaceChar c = false) :
    stripChars (c :: l) = c :: rstripChars l := by
  unfold stripChars lstripChars
  rw [List.dropWhile_cons, if_neg (by simp [h])]
  exact rstripChars_cons_of_not_space c l h

theorem takeWhile_append_of_all (p : Char → Bool) (xs : List Char) (y : Char)
    (ys : List Char) (hxs : ∀ c ∈ xs, p c = true) (hy : p y = false) :
    (xs ++ y :: ys).takeWhile p = xs ∧ (xs ++ y :: ys).dropWhile p = y :: ys := by
  induction xs with
  | nil => simp [List.takeWhile_cons, List.dropWhile_cons, hy]
  | cons x xs ih =>
    have hx := hxs x (by simp)
    have hrec := ih (fun c hc => hxs c (by simp [hc]))
    simp [List.takeWhile_cons, List.dropWhile_cons, hx, hrec.1, hrec.2]

/-- C6 counterexample: the reserved list of line 62 contains five
names, not four — a `<NONE>=x` definition line is rejected as a
reserved-name redefinition rather than accepted. -/
theorem C6_counterexample :
    read_term_hierarchy [chars "<NONE>=x"] = .error "cannot redefine reserved name" := by
  decide

/-- C6 (amended): exactly the five macro names `ANY`, `ENTITY`,
`RELATION`, `EVENT` and `NONE` are reserved: a well-formed definition
line `<name>=value` for a reserved name is a fatal configuration
error, while one for any other name is accepted and records the
placeholder (mapping `<name>` to the whitespace-stripped value), with
the rest of the parser state untouched. -/
theorem C6_reserved_placeholder_names (st : ParseState) (name value : List Char)
    (hne : name ≠ []) (hchars : ∀ c ∈ name, nameChar c = true) :
    (name ∈ reservedNames →
       processLine st ('<' :: (name ++ '>' :: '=' :: value))
         = .error "cannot redefine reserved name")
    ∧ (name ∉ reservedNames →
       processLine st ('<' :: (name ++ '>' :: '=' :: value))
         = .ok { st with defs := setAssoc st.defs ('<' :: name ++ ['>']) (stripChars value) }) := by
  have hlt : isSpaceChar '<' = false := by decide
  have hstrip : stripChars ('<' :: (name ++ '>' :: '=' :: value))
      = '<' :: rstripChars (name ++ '>' :: '=' :: value) :=
    stripChars_cons_of_not_space _ _ hlt
  have hg1 : ¬ (stripChars ('<' :: (name ++ '>' :: '=' :: value)) = []
      ∨ (lstripChars ('<' :: (name ++ '>' :: '=' :: value))).head? = some '#') := by
    rw [hstrip]
    unfold lstripChars
    rw [List.dropWhile_cons, if_neg (by simp [hlt])]
    simp
  have hg2 : ¬ ((stripChars ('<' :: (name ++ '>' :: '=' :: value))).all (fun c => c = '-')
      = true) := by
    rw [hstrip]
    simp
  have hdef : parseDefLine ('<' :: (name ++ '>' :: '=' :: value))
      = some (name, stripChars value) := by
    have hsplit := takeWhile_append_of_all nameChar name '>' ('=' :: value) hchars (by decide)
    simp only [parseDefLine, hsplit.1, hsplit.2]
    simp [hne]
  constructor
  · intro hmem
    unfold processLine
    rw [if_neg hg1, if_neg hg2, hdef]
    simp only [if_pos hmem]
  · intro hmem
    unfold processLine
    rw [if_neg hg1, if_neg hg2, hdef]
    simp only [if_neg hmem]

/-- Witness for C6: the reserved name `NONE` is rejected and the
non-reserved name `FOO` is accepted, from the initial parser state. -/
theorem C6_witness :
    processLine initParseState ('<' :: (chars "NONE" ++ '>' :: '=' :: chars "x"))
        = .error "cannot redefine reserved name"
    ∧ processLine initParseState ('<' :: (chars "FOO" ++ '>' :: '=' :: chars "x"))
        = .ok { initParseState with
                defs := setAssoc initParseState.defs ('<' :: chars "FOO" ++ ['>'])
                          (stripChars (chars "x")) } :=
  ⟨(C6_reserved_placeholder_names initParseState (chars "NONE") (chars "x")
      (by decide) (by decide)).1 (by decide),
   (C6_reserved_placeholder_names initParseState (chars "FOO") (chars "x")
      (by decide) (by decide)).2 (by decide)⟩

theorem substringIn_subset (pat s : List Char) (h : substringIn pat s = true) :
    ∀ c ∈ pat, c ∈ s := by
  induction s with
  | nil =>
    intro c hc
    have hpe : pat = [] := by
      cases hp : pat with
      | nil => rfl
      | cons a as =>
        rw [hp] at h
        simp [substringIn, List.isPrefixOf] at h
    subst hpe
    simp at hc
  | cons x rest ih =>
    intro c hc
    unfold substringIn at h
    by_cases hp : pat.isPrefixOf (x :: rest)
    · exact (List.isPrefixOf_iff_prefix.mp hp).subset hc
    · rw [if_neg hp] at h
      exact List.mem_cons_of_mem x (ih h c hc)

theorem dropWhile_head_false {p : Char → Bool} {l : List Char} {x : Char} {xs : List Char}
    (h : l.dropWhile p = x :: xs) : p x = false := by
  induction l with
  | nil => simp at h
  | cons a l ih =>
    rw [List.dropWhile_cons] at h
    by_cases ha : p a
    · rw [if_pos ha] at h
      exact ih h
    · rw [if_neg ha] at h
      injection h with h1 h2
      subst h1
      exact Bool.eq_false_iff.mpr ha

theorem length_dropWhile_le' (p : Char → Bool) (l : List Char) :
    (l.dropWhile p).length ≤ l.length := by
  induction l with
  | nil => simp
  | cons a l ih =>
    rw [List.dropWhile_cons]
    by_cases h : p a
    · rw [if_pos h]
      exact le_trans ih (by simp)
    · rw [if_neg h]

theorem splitHeadDir_length_lt (p : List Char) (c : Char) (hc : c ∈ p) (hcs : c ≠ '/') :
    (splitHeadDir p).length < p.length := by
  have hpne : p ≠ [] := by rintro rfl; simp at hc
  have hppos : 0 < p.length := List.length_pos.mpr hpne
  simp only [splitHeadDir]
  cases hb : p.reverse.dropWhile (fun c => c ≠ '/') with
  | nil =>
    simp [hppos]
  | cons x b' =>
    have hx : (fun c => decide (c ≠ '/')) x = false := dropWhile_head_false hb
    have hxs : x = '/' := by simpa using hx
    have hsum := List.takeWhile_append_dropWhile (fun c => decide (¬ c = '/')) p.reverse
    cases ha : p.reverse.takeWhile (fun c => c ≠ '/') with
    | cons a a' =>
      have hlen : p.length = (a :: a').length + (x :: b').length := by
        have : p.reverse.length = ((a :: a').length + (x :: b').length) := by
          conv_lhs => rw [← hsum]
          rw [ha, hb, List.length_append]
        simpa using this
      have hshort : (x :: b').reverse.length < p.length := by
        simp only [List.length_reverse, List.length_cons] at hlen ⊢
        omega
      by_cases hif : ((x :: b').reverse ≠ [] ∧ ¬ (x :: b').reverse.all (fun c => c = '/'))
      · rw [if_pos hif]
        have hle := length_dropWhile_le' (fun c => decide (c = '/')) (x :: b').reverse.reverse
        calc ((x :: b').reverse.reverse.dropWhile (fun c => c = '/')).reverse.length
            ≤ (x :: b').reverse.reverse.length := by
              simp only [List.length_reverse] at hle ⊢
              exact hle
          _ < p.length := by simpa using hshort
      · rw [if_neg hif]
        exact hshort
    | nil =>
      have hrev : p.reverse = x :: b' := by
        conv_lhs => rw [← hsum]
        rw [ha, hb, List.nil_append]
      have hhead : (x :: b').reverse = p := by rw [← hrev, List.reverse_reverse]
      have hall : ¬ ((x :: b').reverse.all (fun c => c = '/') = true) := by
        rw [hhead]
        intro hal
        have := List.all_eq_true.mp hal c hc
        simp [hcs] at this
      rw [if_pos ⟨by rw [hhead]; exact hpne, hall⟩]
      rw [List.reverse_reverse]
      subst hxs
      rw [List.dropWhile_cons, if_pos (by simp)]
      have hlenp : p.length = b'.length + 1 := by
        have : p.reverse.length = b'.length + 1 := by rw [hrev]; simp
        simpa using this
      have hle := length_dropWhile_le' (fun c => decide (c = '/')) b'
      simp only [List.length_reverse]
      omega

theorem walkFuel_isSome_of_big_fuel (probe : List Char → Option (List Char))
    (basedir : List Char) (c : Char) (hc : c ∈ basedir) (hcs : c ≠ '/') :
    ∀ (n : Nat) (dir : List Char), dir.length < n →
      (walkFuel probe basedir n dir).isSome = true := by
  intro n
  induction n with
  | zero => intro dir h; omega
  | succ m ih =>
    intro dir hlen
    unfold walkFuel
    by_cases hin : substringIn basedir dir = true
    · rw [if_pos hin]
      cases hpr : probe dir with
      | some content => simp
      | none =>
        apply ih
        have hcdir : c ∈ dir := substringIn_subset basedir dir hin c hc
        have := splitHeadDir_length_lt dir c hcdir hcs
        omega
    · rw [if_neg hin]
      simp

/-- C7 (amended): the upward walk of `__read_first_in_directory_tree`
terminates — within `|directory| + 1` loop iterations — for every
starting directory and every probe outcome, **provided** `BASE_DIR`
contains at least one non-slash character (each iteration that stays
inside the loop strictly shortens the directory).  When `BASE_DIR`
consists only of slashes — exactly the fallback `BASE_DIR = "/"` of
line 319 — the walk need not terminate (see the counterexample). -/
theorem C7_walk_terminates_of_real_basedir (probe : List Char → Option (List Char))
    (basedir dir : List Char) (c : Char) (hc : c ∈ basedir) (hcs : c ≠ '/') :
    (walkFuel probe basedir (dir.length + 1) dir).isSome = true :=
  walkFuel_isSome_of_big_fuel probe basedir c hc hcs (dir.length + 1) dir (by omega)

/-- Witness for C7: a concrete base directory `/base` and start
directory `/base/data` with a probe that never finds the file. -/
theorem C7_witness :
    (walkFuel (fun _ => none) (chars "/base") ((chars "/base/data").length + 1)
      (chars "/base/data")).isSome = true :=
  C7_walk_terminates_of_real_basedir (fun _ => none) (chars "/base") (chars "/base/data")
    'b' (by decide) (by decide)

theorem walkFuel_root_diverges (n : Nat) :
    walkFuel (fun _ => none) (chars "/") n (chars "/") = none := by
  induction n with
  | zero => rfl
  | succ m ih =>
    have h1 : substringIn (chars "/") (chars "/") = true := by decide
    have h2 : splitHeadDir (chars "/") = chars "/" := by decide
    unfold walkFuel
    rw [if_pos h1]
    simp only [h2]
    exact ih

/-- C7 counterexample: with the fallback `BASE_DIR = "/"` (line 319),
starting directory `/`, and a probe that never finds the
configuration file, the walk never leaves the loop: `"/" in "/"`
holds and `os.path.split("/")[0] == "/"`, so no finite fuel
suffices — the claim's "terminates for every starting directory and
every probe outcome" is false. -/
theorem C7_counterexample :
    ¬ walkTerminates (fun _ => none) (chars "/") (chars "/") := by
  rintro ⟨fuel, hf⟩
  rw [walkFuel_root_diverges fuel] at hf
  simp at hf
